import Mathlib

/-!
Verification of `go-rest-scaffold`, a layered REST API for Users, Contacts
and Addresses.

The Go sources present in the repository (HTTP controllers, entity→response
converters, validation helpers, config) are embedded shallowly: structs become
Lean structures, pure functions become Lean functions, fallible handlers
return `Except` with the HTTP status code as the error value, and the
`float64` arithmetic of the pagination metadata is modelled exactly by
round-to-nearest-even with a 53-bit significand over `ℚ`.

Layers of the repository that are referenced by the controllers but whose
files are not part of the source tree (use cases, repositories, the auth
middleware, entity/model struct declarations) are modelled from the
specification; each such definition carries a doc comment starting with
`Modelled from the spec:`.
-/

/-! ## Strings and runes

Go iterates over a string's runes (Unicode code points, compared as
integers).  We model a string under rune iteration as a `List ℕ` of code
points.  `unicode.ToLower` is modelled on the ASCII range (the only range
`toSnakeCase` inspects); all other code points are left unchanged. -/

/-- A Go rune is in `'A'..'Z'` (the test `v >= 'A' && v <= 'Z'` of
`toSnakeCase` in `internal/config` compares code points). -/
def isUpperRune (c : ℕ) : Bool :=
  65 ≤ c && c ≤ 90

/-- `unicode.ToLower` restricted to the ASCII simple case mapping:
an uppercase ASCII letter moves down by 32, anything else is unchanged. -/
def runeToLower (c : ℕ) : ℕ :=
  if isUpperRune c then c + 32 else c

/-- The rune loop of `toSnakeCase` (`internal/config`, part_000): before every
uppercase ASCII letter at a non-initial position an underscore (code point 95)
is inserted.  The boolean argument records whether we are at the first rune
(byte index `i = 0` in the Go loop). -/
def snakeExpand : Bool → List ℕ → List ℕ
  | _, [] => []
  | first, c :: rest =>
    (if !first && isUpperRune c then [95, c] else [c]) ++ snakeExpand false rest

/-- `toSnakeCase` from `internal/config` (part_000): insert `_` before each
non-initial uppercase ASCII letter, then lowercase the whole result
(`strings.ToLower`, modelled rune-wise by `runeToLower`). -/
def toSnakeCase (s : List ℕ) : List ℕ :=
  (snakeExpand true s).map runeToLower

/-! ## Entities

`Modelled from the spec:` the entity struct declarations
(`internal/entity/*.go`) are not in the source tree; the fields are those
used by the converters and described by the spec's data model (owning keys,
nullable session/refresh tokens, integer timestamps, nullable
deleted-timestamp for soft delete). -/

/-- `Modelled from the spec:` the `entity.User` struct: user-supplied unique
id, name, hashed password, nullable session token and refresh token,
timestamps. -/
structure User where
  id : String
  name : String
  password : String
  token : Option String
  refreshToken : Option String
  createdAt : ℤ
  updatedAt : ℤ
  deriving Repr, DecidableEq

/-- `Modelled from the spec:` the `entity.Contact` struct: system-generated
id, owning user id, names, email, phone, timestamps, nullable deleted
timestamp. -/
structure Contact where
  id : String
  userId : String
  firstName : String
  lastName : String
  email : String
  phone : String
  createdAt : ℤ
  updatedAt : ℤ
  deletedAt : Option ℤ
  deriving Repr, DecidableEq

/-- `Modelled from the spec:` the `entity.Address` struct: system-generated
id, owning contact id, street fields, timestamps, nullable deleted
timestamp. -/
structure Address where
  id : String
  contactId : String
  street : String
  city : String
  province : String
  postalCode : String
  country : String
  createdAt : ℤ
  updatedAt : ℤ
  deletedAt : Option ℤ
  deriving Repr, DecidableEq

/-! ## Response models

The response struct declarations (`internal/model/*.go`) are likewise absent
from the tree; fields not assigned by a Go struct literal keep their zero
value, modelled by field defaults (`""`, `0`, `none`). -/

/-- `Modelled from the spec:` `model.UserResponse`; the token fields are
nullable and absent unless set. -/
structure UserResponse where
  id : String := ""
  name : String := ""
  token : Option String := none
  refreshToken : Option String := none
  createdAt : ℤ := 0
  updatedAt : ℤ := 0
  deriving Repr, DecidableEq

/-- `Modelled from the spec:` `model.ContactResponse`. -/
structure ContactResponse where
  id : String := ""
  firstName : String := ""
  lastName : String := ""
  email : String := ""
  phone : String := ""
  createdAt : ℤ := 0
  updatedAt : ℤ := 0
  deriving Repr, DecidableEq

/-- `Modelled from the spec:` `model.AddressResponse`. -/
structure AddressResponse where
  id : String := ""
  street : String := ""
  city : String := ""
  province : String := ""
  postalCode : String := ""
  country : String := ""
  createdAt : ℤ := 0
  updatedAt : ℤ := 0
  deriving Repr, DecidableEq

/-- Paging metadata (`model.PageMetadata`): page, size, total_item,
total_page, all integers in Go (`int` / `int64`). -/
structure PageMetadata where
  page : ℤ
  size : ℤ
  totalItem : ℤ
  totalPage : ℤ
  deriving Repr, DecidableEq

/-- The response envelope `model.WebResponse[T]`: `data` plus optional
`paging` (present only on list endpoints). -/
structure WebResponse (α : Type) where
  data : α
  paging : Option PageMetadata := none
  deriving Repr, DecidableEq

/-! ## Converters (in the source tree) -/

/-- `ContactToResponse` from `internal/model/converter/contact_converter.go`:
copies ID, FirstName, LastName, Email, Phone, CreatedAt, UpdatedAt. -/
def ContactToResponse (contact : Contact) : ContactResponse :=
  { id := contact.id
    firstName := contact.firstName
    lastName := contact.lastName
    email := contact.email
    phone := contact.phone
    createdAt := contact.createdAt
    updatedAt := contact.updatedAt }

/-- `AddressToResponse` from `internal/model/converter` (part_001): copies
ID, Street, City, Province, PostalCode, Country, CreatedAt, UpdatedAt. -/
def AddressToResponse (address : Address) : AddressResponse :=
  { id := address.id
    street := address.street
    city := address.city
    province := address.province
    postalCode := address.postalCode
    country := address.country
    createdAt := address.createdAt
    updatedAt := address.updatedAt }

/-- `UserToResponse` from `internal/model/converter/user_converter.go`:
copies only ID, Name, CreatedAt, UpdatedAt; the credential fields keep their
zero value. -/
def UserToResponse (user : User) : UserResponse :=
  { id := user.id
    name := user.name
    createdAt := user.createdAt
    updatedAt := user.updatedAt }

/-- `UserToTokenResponse` from `internal/model/converter/user_converter.go`:
copies only Token and RefreshToken; everything else keeps its zero value. -/
def UserToTokenResponse (user : User) : UserResponse :=
  { token := user.token
    refreshToken := user.refreshToken }

/-! ## Case-insensitive substring matching for the contact search filters -/

/-- ASCII lowercasing of a string, character-wise. -/
def lowerAscii (s : String) : String :=
  s.map fun c => if 'A' ≤ c ∧ c ≤ 'Z' then Char.ofNat (c.toNat + 32) else c

/-- `hasSub hay needle` holds when `needle` occurs contiguously in `hay`. -/
def hasSub (hay needle : List Char) : Bool :=
  match hay with
  | [] => needle.isEmpty
  | c :: t => needle.isPrefixOf (c :: t) || hasSub t needle

/-- Case-insensitive partial match, as a SQL `LIKE '%…%'` over lowercased
operands. -/
def containsCI (hay needle : String) : Bool :=
  hasSub (lowerAscii hay).data (lowerAscii needle).data

/-! ## The float64 pagination arithmetic

`ContactController.List` (part_002, lines 91–96) computes
`TotalPage: int64(math.Ceil(float64(total) / float64(request.Size)))`.
We model IEEE-754 binary64 arithmetic exactly over `ℚ`: a value is rounded
to the nearest rational with a 53-bit significand, ties to even significand
(the exponent range of binary64 is not reached by any value considered
here).  `math.Ceil` is exact on binary64, and the `int64` conversion is
exact whenever the result is in range. -/

/-- A positive rational scaled into the significand range `[2^52, 2^53)`
(for `2^e ≤ q < 2^(e+1)` with `e = Int.log 2 q`). -/
def rndScaled (q : ℚ) : ℚ :=
  q * (2 : ℚ) ^ ((52 : ℤ) - Int.log 2 q)

/-- The 53-bit significand of a positive rational: the scaled value rounded
to the nearest integer, ties to the even integer. -/
def rndSig (q : ℚ) : ℤ :=
  if rndScaled q - (⌊rndScaled q⌋ : ℚ) < 1 / 2 then ⌊rndScaled q⌋
  else if 1 / 2 < rndScaled q - (⌊rndScaled q⌋ : ℚ) then ⌊rndScaled q⌋ + 1
  else if 2 ∣ ⌊rndScaled q⌋ then ⌊rndScaled q⌋ else ⌊rndScaled q⌋ + 1

/-- Round a positive rational to 53 significant bits, to nearest, ties to
even: scale into `[2^52, 2^53)`, round the scaled value to an integer
significand, scale back. -/
def rndPos (q : ℚ) : ℚ :=
  (rndSig q : ℚ) * (2 : ℚ) ^ (Int.log 2 q - 52)

/-- Rounding a rational to binary64 (sign-symmetric, unbounded exponent). -/
def rnd (q : ℚ) : ℚ :=
  if q < 0 then -rndPos (-q) else if q = 0 then 0 else rndPos q

/-- Lines 91–96 of part_002:
`int64(math.Ceil(float64(total) / float64(size)))`.
For `size = 0` the float division yields `+Inf` (or `NaN` when `total = 0`)
and the `int64` conversion is implementation-defined; gc on amd64 produces
`math.MinInt64`, which we adopt.  No claim depends on this branch. -/
def totalPageGo (total size : ℤ) : ℤ :=
  if size = 0 then -(2 ^ 63)
  else ⌈rnd (rnd (total : ℚ) / rnd (size : ℚ))⌉

/-! ## Request models

`Modelled from the spec:` the request struct declarations
(`internal/model/*.go`) are not in the source tree; fields are those the
controllers assign plus the JSON body fields implied by the spec. -/

/-- `Modelled from the spec:` `model.Auth`, the request-scoped authenticated
user attached by the middleware (`middleware.GetUser`). -/
structure Auth where
  id : String
  deriving Repr, DecidableEq

/-- `Modelled from the spec:` `model.CreateContactRequest`. -/
structure CreateContactRequest where
  userId : String := ""
  firstName : String := ""
  lastName : String := ""
  email : String := ""
  phone : String := ""
  deriving Repr, DecidableEq

/-- `Modelled from the spec:` `model.UpdateContactRequest`. -/
structure UpdateContactRequest where
  userId : String := ""
  id : String := ""
  firstName : String := ""
  lastName : String := ""
  email : String := ""
  phone : String := ""
  deriving Repr, DecidableEq

/-- `Modelled from the spec:` `model.SearchContactRequest`. -/
structure SearchContactRequest where
  userId : String
  name : String
  email : String
  phone : String
  page : ℤ
  size : ℤ
  deriving Repr, DecidableEq

/-- `Modelled from the spec:` `model.GetContactRequest`. -/
structure GetContactRequest where
  userId : String
  id : String
  deriving Repr, DecidableEq

/-- `Modelled from the spec:` `model.DeleteContactRequest`. -/
structure DeleteContactRequest where
  userId : String
  id : String
  deriving Repr, DecidableEq

/-- `Modelled from the spec:` `model.CreateAddressRequest`. -/
structure CreateAddressRequest where
  userId : String := ""
  contactId : String := ""
  street : String := ""
  city : String := ""
  province : String := ""
  postalCode : String := ""
  country : String := ""
  deriving Repr, DecidableEq

/-- `Modelled from the spec:` `model.UpdateAddressRequest`. -/
structure UpdateAddressRequest where
  userId : String := ""
  contactId : String := ""
  id : String := ""
  street : String := ""
  city : String := ""
  province : String := ""
  postalCode : String := ""
  country : String := ""
  deriving Repr, DecidableEq

/-- `Modelled from the spec:` `model.DeleteAddressRequest`. -/
structure DeleteAddressRequest where
  userId : String
  contactId : String
  id : String
  deriving Repr, DecidableEq

/-- `Modelled from the spec:` `model.RegisterUserRequest`. -/
structure RegisterUserRequest where
  id : String := ""
  name : String := ""
  password : String := ""
  deriving Repr, DecidableEq

/-- `Modelled from the spec:` `model.LoginUserRequest`. -/
structure LoginUserRequest where
  id : String := ""
  password : String := ""
  deriving Repr, DecidableEq

/-- `Modelled from the spec:` `model.UpdateUserRequest`. -/
structure UpdateUserRequest where
  id : String := ""
  name : String := ""
  password : String := ""
  deriving Repr, DecidableEq

/-- `Modelled from the spec:` `model.RefreshTokenRequest`. -/
structure RefreshTokenRequest where
  refreshToken : String := ""
  deriving Repr, DecidableEq

/-! ## Use cases

`Modelled from the spec:` the use-case layer (`internal/usecase/*.go`) and
repository layer are not in the source tree.  They are modelled from the
spec's contracts (sections 3, 4.3, 4.4): ownership is checked by re-querying
"does this resource belong to this user"; lookups exclude soft-deleted rows;
`NotFound` (HTTP 404) when the identifier does not exist, is deleted, or is
not owned; contact search filters case-insensitively and paginates. -/

/-- `Modelled from the spec:` the ownership re-query for a contact: the row
with this id, owned by this user and not soft-deleted. -/
def contactOwned (store : List Contact) (userId id : String) : Option Contact :=
  store.find? fun c => c.id == id && c.userId == userId && c.deletedAt == none

/-- `Modelled from the spec:` the ownership chain for an address: the owning
contact must belong to the user, then the address row with this id under
that contact, not soft-deleted. -/
def addressOwned (contacts : List Contact) (addresses : List Address)
    (userId contactId id : String) : Option Address :=
  match contactOwned contacts userId contactId with
  | none => none
  | some _ =>
    addresses.find? fun a => a.id == id && a.contactId == contactId && a.deletedAt == none

/-- `Modelled from the spec:` the system-generated identifier ("e.g. UUID");
a fresh-counter generator producing a nonempty opaque string. -/
def genUUID (n : ℕ) : String :=
  "uuid-" ++ toString n

/-- `Modelled from the spec:` one contact row matches a search request when
it belongs to the user, is not deleted, and every supplied filter (name over
first or last name, email, phone; case-insensitive partial match) holds;
absent filters (empty strings) do not constrain. -/
def matchesSearch (req : SearchContactRequest) (c : Contact) : Bool :=
  c.userId == req.userId && c.deletedAt == none &&
    (req.name == "" || containsCI c.firstName req.name || containsCI c.lastName req.name) &&
    (req.email == "" || containsCI c.email req.email) &&
    (req.phone == "" || containsCI c.phone req.phone)

/-- `Modelled from the spec:` `ContactUseCase.Search` (section 4.3): filter
the user's contacts in creation order, treat `size ≤ 0` as the default 10,
return the page at offset `(page-1)*size` and the total match count across
all pages. -/
def ContactUseCase.Search (store : List Contact) (req : SearchContactRequest) :
    List ContactResponse × ℤ :=
  let found := store.filter (matchesSearch req)
  let size := if req.size ≤ 0 then 10 else req.size
  let offset := ((req.page - 1) * size).toNat
  (((found.drop offset).take size.toNat).map ContactToResponse, (found.length : ℤ))

/-- `Modelled from the spec:` `ContactUseCase.Create`: persist a new contact
with a system-generated id and the request's fields, return its response
shape and the new store. -/
def ContactUseCase.Create (store : List Contact) (now : ℤ) (fresh : ℕ)
    (req : CreateContactRequest) : ContactResponse × List Contact :=
  let c : Contact :=
    { id := genUUID fresh, userId := req.userId, firstName := req.firstName,
      lastName := req.lastName, email := req.email, phone := req.phone,
      createdAt := now, updatedAt := now, deletedAt := none }
  (ContactToResponse c, store ++ [c])

/-- `Modelled from the spec:` `ContactUseCase.Get`: `NotFound` (404) unless
the contact exists, is live and is owned by the requesting user. -/
def ContactUseCase.Get (store : List Contact) (req : GetContactRequest) :
    Except ℤ ContactResponse :=
  match contactOwned store req.userId req.id with
  | none => .error 404
  | some c => .ok (ContactToResponse c)

/-- `Modelled from the spec:` `ContactUseCase.Delete`: ownership re-query,
then soft delete; `NotFound` (404) when absent, already deleted or not
owned. -/
def ContactUseCase.Delete (store : List Contact) (now : ℤ)
    (req : DeleteContactRequest) : Except ℤ (List Contact) :=
  match contactOwned store req.userId req.id with
  | none => .error 404
  | some _ =>
    .ok (store.map fun c =>
      if c.id == req.id && c.userId == req.userId then { c with deletedAt := some now } else c)

/-- `Modelled from the spec:` `AddressUseCase.Create`: verify the contact
chain, then persist a new address with a system-generated id. -/
def AddressUseCase.Create (contacts : List Contact) (addresses : List Address)
    (now : ℤ) (fresh : ℕ) (req : CreateAddressRequest) :
    Except ℤ (AddressResponse × List Address) :=
  match contactOwned contacts req.userId req.contactId with
  | none => .error 404
  | some _ =>
    let a : Address :=
      { id := genUUID fresh, contactId := req.contactId, street := req.street,
        city := req.city, province := req.province, postalCode := req.postalCode,
        country := req.country, createdAt := now, updatedAt := now, deletedAt := none }
    .ok (AddressToResponse a, addresses ++ [a])

/-- `Modelled from the spec:` `AddressUseCase.Get`: `NotFound` (404) unless
the address exists, is live and is reachable through a contact owned by the
requesting user. -/
def AddressUseCase.Get (contacts : List Contact) (addresses : List Address)
    (userId contactId id : String) : Except ℤ AddressResponse :=
  match addressOwned contacts addresses userId contactId id with
  | none => .error 404
  | some a => .ok (AddressToResponse a)

/-- `Modelled from the spec:` `AddressUseCase.Delete`: ownership chain, then
soft delete; `NotFound` (404) when absent, already deleted or not owned. -/
def AddressUseCase.Delete (contacts : List Contact) (addresses : List Address)
    (now : ℤ) (req : DeleteAddressRequest) : Except ℤ (List Address) :=
  match addressOwned contacts addresses req.userId req.contactId req.id with
  | none => .error 404
  | some _ =>
    .ok (addresses.map fun a =>
      if a.id == req.id && a.contactId == req.contactId then { a with deletedAt := some now } else a)

/-! ## Auth middleware

`Modelled from the spec:` the middleware (`internal/delivery/http/middleware`)
is not in the source tree.  Section 4.2: extract the bearer token from the
header (no "Bearer" prefix); the Token Authenticator looks up the user whose
stored session token matches exactly, failing when the token is empty or
matches no user; on failure return HTTP 401 without invoking the controller. -/

/-- `Modelled from the spec:` the Token Authenticator (section 4.1): the user
whose stored token matches the presented bearer token exactly; `none` when
the header is absent, the token is empty, or no user matches. -/
def verifyToken (users : List User) (token : Option String) : Option User :=
  match token with
  | none => none
  | some t => if t = "" then none else users.find? fun u => u.token == some t

/-- Outcome of a protected route: the controller's value, or an immediate
HTTP 401. -/
inductive RouteResult (α : Type) where
  | ok (value : α)
  | unauthorized
  deriving Repr, DecidableEq

/-- `Modelled from the spec:` the auth gate (section 4.2): on success attach
the resolved user and run the controller; on failure 401 immediately. -/
def protectedRoute {α : Type} (users : List User) (token : Option String)
    (controller : User → α) : RouteResult α :=
  match verifyToken users token with
  | none => .unauthorized
  | some u => .ok (controller u)

/-- `Modelled from the spec:` `UserUseCase.Logout`: clear the stored session
token of the given user. -/
def UserUseCase.Logout (users : List User) (id : String) : List User :=
  users.map fun u => if u.id == id then { u with token := none } else u

/-! ## HTTP controllers (in the source tree)

Each handler is embedded as a function of the authenticated user
(`middleware.GetUser`), the parsed request body (`Option` models
`ctx.BodyParser`: `none` is a parse failure), the relevant path/query
parameters, and the use case it delegates to (a function argument, so that
properties about "what the controller passes to the use case" are
hyperproperties over all use cases).  A handler's outcome is
`Except ℤ (WebResponse α)`: `.error s` models returning a fiber error with
HTTP status `s` (`fiber.ErrBadRequest` is 400) or propagating the use-case
error unchanged, `.ok` models writing the JSON envelope. -/

/-- `ContactController.Create` (part_002, lines 38–55): parse body or 400;
overwrite `request.UserId` with the authenticated user's id; delegate;
envelope the response. -/
def ContactController.Create
    (uc : CreateContactRequest → Except ℤ ContactResponse)
    (auth : Auth) (body : Option CreateContactRequest) :
    Except ℤ (WebResponse ContactResponse) :=
  match body with
  | none => .error 400
  | some parsed =>
    let request := { parsed with userId := auth.id }
    match uc request with
    | .error e => .error e
    | .ok response => .ok { data := response }

/-- `ContactController.List` (part_002, lines 73–102): build the search
request from query parameters (`ctx.Query`/`ctx.QueryInt` return the default
when the parameter is absent or unparsable, modelled by `Option.getD`);
delegate to `Search`; build paging metadata from the request's raw page and
size and the float64 ceiling. -/
def ContactController.List
    (uc : SearchContactRequest → Except ℤ (List ContactResponse × ℤ))
    (auth : Auth) (qname qemail qphone : Option String) (qpage qsize : Option ℤ) :
    Except ℤ (WebResponse (List ContactResponse)) :=
  let request : SearchContactRequest :=
    { userId := auth.id, name := qname.getD "", email := qemail.getD "",
      phone := qphone.getD "", page := qpage.getD 1, size := qsize.getD 10 }
  match uc request with
  | .error e => .error e
  | .ok (responses, total) =>
    .ok { data := responses,
          paging := some
            { page := request.page, size := request.size, totalItem := total,
              totalPage := totalPageGo total request.size } }

/-- `ContactController.Get` (part_002, lines 117–132). -/
def ContactController.Get
    (uc : GetContactRequest → Except ℤ ContactResponse)
    (auth : Auth) (contactId : String) :
    Except ℤ (WebResponse ContactResponse) :=
  let request : GetContactRequest := { userId := auth.id, id := contactId }
  match uc request with
  | .error e => .error e
  | .ok response => .ok { data := response }

/-- `ContactController.Update` (part_002, lines 149–168): parse body or 400;
overwrite `request.UserId` and `request.ID` from context and path. -/
def ContactController.Update
    (uc : UpdateContactRequest → Except ℤ ContactResponse)
    (auth : Auth) (contactId : String) (body : Option UpdateContactRequest) :
    Except ℤ (WebResponse ContactResponse) :=
  match body with
  | none => .error 400
  | some parsed =>
    let request := { parsed with userId := auth.id, id := contactId }
    match uc request with
    | .error e => .error e
    | .ok response => .ok { data := response }

/-- `ContactController.Delete` (part_002, lines 183–198): on use-case error
propagate it; otherwise respond `data = true`. -/
def ContactController.Delete
    (uc : DeleteContactRequest → Except ℤ Unit)
    (auth : Auth) (contactId : String) :
    Except ℤ (WebResponse Bool) :=
  let request : DeleteContactRequest := { userId := auth.id, id := contactId }
  match uc request with
  | .error e => .error e
  | .ok _ => .ok { data := true }

/-- `AddressController.Create` (`address_controller.go`, lines 39–58): parse
body or 400; overwrite `request.UserId` and `request.ContactId`. -/
def AddressController.Create
    (uc : CreateAddressRequest → Except ℤ AddressResponse)
    (auth : Auth) (contactId : String) (body : Option CreateAddressRequest) :
    Except ℤ (WebResponse AddressResponse) :=
  match body with
  | none => .error 400
  | some parsed =>
    let request := { parsed with userId := auth.id, contactId := contactId }
    match uc request with
    | .error e => .error e
    | .ok response => .ok { data := response }

/-- `AddressController.Update` (`address_controller.go`, lines 141–161):
parse body or 400; overwrite `request.UserId`, `request.ContactId`,
`request.ID`. -/
def AddressController.Update
    (uc : UpdateAddressRequest → Except ℤ AddressResponse)
    (auth : Auth) (contactId addressId : String) (body : Option UpdateAddressRequest) :
    Except ℤ (WebResponse AddressResponse) :=
  match body with
  | none => .error 400
  | some parsed =>
    let request := { parsed with userId := auth.id, contactId := contactId, id := addressId }
    match uc request with
    | .error e => .error e
    | .ok response => .ok { data := response }

/-- `AddressController.Delete` (`address_controller.go`, lines 177–194): on
use-case error propagate it; otherwise respond `data = true`. -/
def AddressController.Delete
    (uc : DeleteAddressRequest → Except ℤ Unit)
    (auth : Auth) (contactId addressId : String) :
    Except ℤ (WebResponse Bool) :=
  let request : DeleteAddressRequest :=
    { userId := auth.id, contactId := contactId, id := addressId }
  match uc request with
  | .error e => .error e
  | .ok _ => .ok { data := true }

/-- `UserController.Register` (part_003, lines 35–50): parse body or 400;
delegate to `Create`. -/
def UserController.Register
    (uc : RegisterUserRequest → Except ℤ UserResponse)
    (body : Option RegisterUserRequest) :
    Except ℤ (WebResponse UserResponse) :=
  match body with
  | none => .error 400
  | some request =>
    match uc request with
    | .error e => .error e
    | .ok response => .ok { data := response }

/-- `UserController.Login` (part_003, lines 64–79): parse body or 400. -/
def UserController.Login
    (uc : LoginUserRequest → Except ℤ UserResponse)
    (body : Option LoginUserRequest) :
    Except ℤ (WebResponse UserResponse) :=
  match body with
  | none => .error 400
  | some request =>
    match uc request with
    | .error e => .error e
    | .ok response => .ok { data := response }

/-- `UserController.Update` (part_003, lines 148–165): parse body or 400;
overwrite `request.ID` with the authenticated user's id. -/
def UserController.Update
    (uc : UpdateUserRequest → Except ℤ UserResponse)
    (auth : Auth) (body : Option UpdateUserRequest) :
    Except ℤ (WebResponse UserResponse) :=
  match body with
  | none => .error 400
  | some parsed =>
    let request := { parsed with id := auth.id }
    match uc request with
    | .error e => .error e
    | .ok response => .ok { data := response }

/-- `UserController.RefreshToken` (part_003, lines 179–193): parse body or
400. -/
def UserController.RefreshToken
    (uc : RefreshTokenRequest → Except ℤ UserResponse)
    (body : Option RefreshTokenRequest) :
    Except ℤ (WebResponse UserResponse) :=
  match body with
  | none => .error 400
  | some request =>
    match uc request with
    | .error e => .error e
    | .ok response => .ok { data := response }

/-! ## Composed endpoints and a demonstration store -/

/-- The contact list endpoint with the modelled search use case plugged in. -/
def listContacts (store : List Contact) (auth : Auth)
    (qname qemail qphone : Option String) (qpage qsize : Option ℤ) :
    Except ℤ (WebResponse (List ContactResponse)) :=
  ContactController.List (fun r => .ok (ContactUseCase.Search store r))
    auth qname qemail qphone qpage qsize

/-- A store of 25 live contacts, all owned by user `u1`, in creation
order. -/
def demoContacts : List Contact :=
  (List.range 25).map fun i =>
    { id := toString i, userId := "u1", firstName := "Alpha", lastName := "Beta",
      email := "a@b.c", phone := "0800", createdAt := (i : ℤ), updatedAt := (i : ℤ),
      deletedAt := none }

/-! ## Helper lemmas -/

theorem find?_append_none {α : Type} (p : α → Bool) (l₁ l₂ : List α)
    (h : ∀ a ∈ l₁, p a = false) :
    List.find? p (l₁ ++ l₂) = List.find? p l₂ := by
  induction l₁ with
  | nil => rfl
  | cons a t ih =>
    rw [List.cons_append, List.find?_cons, h a (List.mem_cons_self a t)]
    exact ih fun x hx => h x (List.mem_cons_of_mem a hx)

theorem runeToLower_no_upper (c : ℕ) : isUpperRune (runeToLower c) = false := by
  unfold runeToLower
  by_cases h : isUpperRune c = true
  · rw [if_pos h]
    unfold isUpperRune at h ⊢
    simp only [Bool.and_eq_true, decide_eq_true_eq] at h
    simp only [Bool.and_eq_false_iff, decide_eq_false_iff_not]
    omega
  · rw [if_neg h]
    exact Bool.eq_false_iff.mpr h

theorem runeToLower_idem (c : ℕ) : runeToLower (runeToLower c) = runeToLower c := by
  have h := runeToLower_no_upper c
  unfold runeToLower at h ⊢
  split
  · rename_i hc
    rw [if_pos hc] at h
    rw [if_neg (Bool.eq_false_iff.mp h)]
  · rfl

theorem snakeExpand_no_upper (b : Bool) (l : List ℕ)
    (h : ∀ c ∈ l, isUpperRune c = false) : snakeExpand b l = l := by
  induction l generalizing b with
  | nil => rfl
  | cons c t ih =>
    unfold snakeExpand
    rw [h c (List.mem_cons_self c t), Bool.and_false, if_neg (by simp)]
    rw [ih false fun x hx => h x (List.mem_cons_of_mem c hx)]
    rfl

/-- C10: `toSnakeCase` is idempotent: its output contains no ASCII uppercase
letter (an underscore is inserted before each non-initial uppercase letter
and the whole result is lowercased), so a second application inserts no
underscore and lowercases nothing further. -/
theorem toSnakeCase_idempotent (s : List ℕ) :
    toSnakeCase (toSnakeCase s) = toSnakeCase s := by
  unfold toSnakeCase
  rw [snakeExpand_no_upper]
  · rw [List.map_map]
    exact List.map_congr_left fun c _ => runeToLower_idem c
  · intro c hc
    obtain ⟨a, _, rfl⟩ := List.mem_map.1 hc
    exact runeToLower_no_upper a

/-- C9: `UserToResponse` is unaffected by the credential fields (Password,
Token, RefreshToken) — it outputs only ID, Name, CreatedAt, UpdatedAt — and
`UserToTokenResponse` outputs only Token and RefreshToken and is unaffected
by every other field. -/
theorem user_responses_hide_credentials (u : User) (p : String)
    (t rt : Option String) (i n pw : String) (ca ua : ℤ) :
    UserToResponse { u with password := p, token := t, refreshToken := rt } =
      UserToResponse u ∧
    UserToTokenResponse
        { u with id := i, name := n, password := pw, createdAt := ca, updatedAt := ua } =
      UserToTokenResponse u :=
  ⟨rfl, rfl⟩

/-- C5: whenever the request body fails to parse (`ctx.BodyParser` error,
modelled by `none`), every controller returns 400 Bad Request and the use
case is never invoked (the outcome is the same for every use case): contact
Create/Update, address Create/Update, user Register/Login/Update/RefreshToken. -/
theorem bad_body_returns_400_without_usecase :
    (∀ (uc : CreateContactRequest → Except ℤ ContactResponse) (auth : Auth),
        ContactController.Create uc auth none = .error 400) ∧
    (∀ (uc : UpdateContactRequest → Except ℤ ContactResponse) (auth : Auth)
        (cid : String), ContactController.Update uc auth cid none = .error 400) ∧
    (∀ (uc : CreateAddressRequest → Except ℤ AddressResponse) (auth : Auth)
        (cid : String), AddressController.Create uc auth cid none = .error 400) ∧
    (∀ (uc : UpdateAddressRequest → Except ℤ AddressResponse) (auth : Auth)
        (cid aid : String), AddressController.Update uc auth cid aid none = .error 400) ∧
    (∀ uc : RegisterUserRequest → Except ℤ UserResponse,
        UserController.Register uc none = .error 400) ∧
    (∀ uc : LoginUserRequest → Except ℤ UserResponse,
        UserController.Login uc none = .error 400) ∧
    (∀ (uc : UpdateUserRequest → Except ℤ UserResponse) (auth : Auth),
        UserController.Update uc auth none = .error 400) ∧
    (∀ uc : RefreshTokenRequest → Except ℤ UserResponse,
        UserController.RefreshToken uc none = .error 400) :=
  ⟨fun _ _ => rfl, fun _ _ _ => rfl, fun _ _ _ => rfl, fun _ _ _ _ => rfl,
   fun _ => rfl, fun _ => rfl, fun _ _ => rfl, fun _ => rfl⟩

/-- C8: the controllers overwrite the body-supplied UserId with the
authenticated user's id: two identical bodies differing only in UserId give
identical outcomes for every use case, and any two use cases agreeing on all
requests whose UserId is the authenticated id are indistinguishable —
i.e. the input passed to the use case always carries the authenticated
user's id.  Covers contact Create/Update and address Create. -/
theorem usecase_input_uses_auth_user :
    (∀ (auth : Auth) (b : CreateContactRequest) (x y : String)
        (uc : CreateContactRequest → Except ℤ ContactResponse),
        ContactController.Create uc auth (some { b with userId := x }) =
          ContactController.Create uc auth (some { b with userId := y })) ∧
    (∀ (auth : Auth) (cid : String) (b : UpdateContactRequest) (x y : String)
        (uc : UpdateContactRequest → Except ℤ ContactResponse),
        ContactController.Update uc auth cid (some { b with userId := x }) =
          ContactController.Update uc auth cid (some { b with userId := y })) ∧
    (∀ (auth : Auth) (cid : String) (b : CreateAddressRequest) (x y : String)
        (uc : CreateAddressRequest → Except ℤ AddressResponse),
        AddressController.Create uc auth cid (some { b with userId := x }) =
          AddressController.Create uc auth cid (some { b with userId := y })) ∧
    (∀ (auth : Auth) (body : Option CreateContactRequest)
        (uc₁ uc₂ : CreateContactRequest → Except ℤ ContactResponse),
        (∀ r, r.userId = auth.id → uc₁ r = uc₂ r) →
        ContactController.Create uc₁ auth body = ContactController.Create uc₂ auth body) ∧
    (∀ (auth : Auth) (cid : String) (body : Option UpdateContactRequest)
        (uc₁ uc₂ : UpdateContactRequest → Except ℤ ContactResponse),
        (∀ r, r.userId = auth.id → uc₁ r = uc₂ r) →
        ContactController.Update uc₁ auth cid body =
          ContactController.Update uc₂ auth cid body) ∧
    (∀ (auth : Auth) (cid : String) (body : Option CreateAddressRequest)
        (uc₁ uc₂ : CreateAddressRequest → Except ℤ AddressResponse),
        (∀ r, r.userId = auth.id → uc₁ r = uc₂ r) →
        AddressController.Create uc₁ auth cid body =
          AddressController.Create uc₂ auth cid body) := by
  refine ⟨fun _ _ _ _ _ => rfl, fun _ _ _ _ _ _ => rfl, fun _ _ _ _ _ _ => rfl,
    ?_, ?_, ?_⟩
  · intro auth body uc₁ uc₂ h
    cases body with
    | none => rfl
    | some parsed =>
      simp only [ContactController.Create]
      rw [h { parsed with userId := auth.id } rfl]
  · intro auth cid body uc₁ uc₂ h
    cases body with
    | none => rfl
    | some parsed =>
      simp only [ContactController.Update]
      rw [h { parsed with userId := auth.id, id := cid } rfl]
  · intro auth cid body uc₁ uc₂ h
    cases body with
    | none => rfl
    | some parsed =>
      simp only [AddressController.Create]
      rw [h { parsed with userId := auth.id, contactId := cid } rfl]

/-- Witness for `usecase_input_uses_auth_user` at a concrete instance: a use
case reading the request's UserId agrees with one returning the constant
`"u"` because the controller passes the authenticated id. -/
theorem usecase_input_uses_auth_user_witness :
    ContactController.Create (fun r => .ok { id := r.userId }) { id := "u" } (some {}) =
      ContactController.Create (fun _ => .ok { id := "u" }) { id := "u" } (some {}) :=
  usecase_input_uses_auth_user.2.2.2.1 { id := "u" } (some {}) _ _
    fun _ hr => by rw [hr]

theorem genUUID_ne_empty (n : ℕ) : genUUID n ≠ "" := by
  intro h
  have h2 : (genUUID n).length = 0 := by rw [h]; rfl
  rw [genUUID, String.length_append] at h2
  have h3 : ("uuid-" : String).length = 5 := rfl
  omega

/-- C3: a request to a protected route whose bearer token is missing or
matches no stored user's session token gets HTTP 401 and the controller is
never invoked (the outcome is the same for every controller); in particular
a token whose only holder has logged out is rejected with 401. -/
theorem protected_route_rejects_invalid_token :
    (∀ {α : Type} (users : List User) (token : Option String) (c₁ c₂ : User → α),
        (token = none ∨ ∀ u ∈ users, u.token ≠ token) →
        protectedRoute users token c₁ = RouteResult.unauthorized ∧
        protectedRoute users token c₁ = protectedRoute users token c₂) ∧
    (∀ {α : Type} (users : List User) (uid t : String) (c : User → α),
        (∀ u ∈ users, u.token = some t → u.id = uid) →
        protectedRoute (UserUseCase.Logout users uid) (some t) c =
          RouteResult.unauthorized) := by
  constructor
  · intro α users token c₁ c₂ h
    have hv : verifyToken users token = none := by
      cases token with
      | none => rfl
      | some t =>
        have hall : ∀ u ∈ users, u.token ≠ some t := by
          rcases h with h | h
          · exact absurd h (by simp)
          · exact h
        show (if t = "" then none
          else List.find? (fun u => u.token == some t) users) = none
        by_cases ht : t = ""
        · rw [if_pos ht]
        · rw [if_neg ht, List.find?_eq_none]
          intro u hu hb
          exact hall u hu (beq_iff_eq.mp hb)
    constructor <;> simp [protectedRoute, hv]
  · intro α users uid t c h
    have hv : verifyToken (UserUseCase.Logout users uid) (some t) = none := by
      show (if t = "" then none
        else List.find? (fun u => u.token == some t) (UserUseCase.Logout users uid)) = none
      by_cases ht : t = ""
      · rw [if_pos ht]
      · rw [if_neg ht, List.find?_eq_none]
        intro u' hu' hb
        obtain ⟨u, hu, rfl⟩ := List.mem_map.1 hu'
        by_cases hid : (u.id == uid) = true
        · rw [if_pos hid] at hb
          simp at hb
        · rw [if_neg hid] at hb
          exact hid (beq_iff_eq.mpr (h u hu (beq_iff_eq.mp hb)))
    simp [protectedRoute, hv]

/-- Witness for `protected_route_rejects_invalid_token`: a user logs in with
token `tok123`, logs out, and a request presenting `tok123` is rejected with
401; a request with no token at all is also rejected. -/
theorem protected_route_rejects_invalid_token_witness :
    protectedRoute
        (UserUseCase.Logout
          [{ id := "alice", name := "Alice", password := "h", token := some "tok123",
             refreshToken := none, createdAt := 0, updatedAt := 0 }] "alice")
        (some "tok123") UserToResponse = RouteResult.unauthorized ∧
    protectedRoute
        [{ id := "alice", name := "Alice", password := "h", token := some "tok123",
           refreshToken := none, createdAt := 0, updatedAt := 0 }]
        none UserToResponse = RouteResult.unauthorized :=
  ⟨protected_route_rejects_invalid_token.2 _ "alice" "tok123" UserToResponse
      (by intro u hu htok; simp at hu; rw [hu]),
   (protected_route_rejects_invalid_token.1 _ none UserToResponse UserToResponse
      (Or.inl rfl)).1⟩

/-- C4: a Delete (contact or address) naming an identifier that does not
exist, is already soft-deleted, or is not owned by the requesting user fails
with NotFound (404) — for an address, "not owned" includes a live matching
address row whose owning contact belongs to a different user (the contact
chain fails) — and the success envelope `data = true` is returned if and
only if the use-case Delete returns no error. -/
theorem delete_notFound_or_success :
    (∀ (store : List Contact) (now : ℤ) (auth : Auth) (contactId : String),
        (∀ c ∈ store, ¬(c.id = contactId ∧ c.userId = auth.id ∧ c.deletedAt = none)) →
        ContactController.Delete
            (fun r => (ContactUseCase.Delete store now r).map fun _ => ()) auth contactId =
          .error 404) ∧
    (∀ (contacts : List Contact) (addresses : List Address) (now : ℤ) (auth : Auth)
        (contactId addressId : String),
        ((∀ c ∈ contacts, ¬(c.id = contactId ∧ c.userId = auth.id ∧ c.deletedAt = none)) ∨
          (∀ a ∈ addresses, ¬(a.id = addressId ∧ a.contactId = contactId ∧ a.deletedAt = none))) →
        AddressController.Delete
            (fun r => (AddressUseCase.Delete contacts addresses now r).map fun _ => ())
            auth contactId addressId = .error 404) ∧
    (∀ (uc : DeleteContactRequest → Except ℤ Unit) (auth : Auth) (contactId : String),
        ContactController.Delete uc auth contactId = .ok { data := true } ↔
          uc { userId := auth.id, id := contactId } = .ok ()) ∧
    (∀ (uc : DeleteAddressRequest → Except ℤ Unit) (auth : Auth) (contactId addressId : String),
        AddressController.Delete uc auth contactId addressId = .ok { data := true } ↔
          uc { userId := auth.id, contactId := contactId, id := addressId } = .ok ()) := by
  refine ⟨?_, ?_, ?_, ?_⟩
  · intro store now auth contactId h
    have hfind : store.find?
        (fun c => c.id == contactId && c.userId == auth.id && c.deletedAt == none) = none := by
      rw [List.find?_eq_none]
      intro c hc hpc
      simp only [Bool.and_eq_true, beq_iff_eq] at hpc
      exact h c hc ⟨hpc.1.1, hpc.1.2, hpc.2⟩
    simp only [ContactController.Delete, ContactUseCase.Delete, contactOwned, hfind]
    rfl
  · intro contacts addresses now auth contactId addressId h
    rcases h with hc | ha
    · have hcfind : contacts.find?
          (fun c => c.id == contactId && c.userId == auth.id && c.deletedAt == none) = none := by
        rw [List.find?_eq_none]
        intro c hcmem hpc
        simp only [Bool.and_eq_true, beq_iff_eq] at hpc
        exact hc c hcmem ⟨hpc.1.1, hpc.1.2, hpc.2⟩
      simp only [AddressController.Delete, AddressUseCase.Delete, addressOwned,
        contactOwned, hcfind]
      rfl
    · have hfind : addresses.find?
          (fun a => a.id == addressId && a.contactId == contactId && a.deletedAt == none) = none := by
        rw [List.find?_eq_none]
        intro a hamem hpa
        simp only [Bool.and_eq_true, beq_iff_eq] at hpa
        exact ha a hamem ⟨hpa.1.1, hpa.1.2, hpa.2⟩
      cases hco : contactOwned contacts auth.id contactId with
      | none =>
        simp only [AddressController.Delete, AddressUseCase.Delete, addressOwned, hco]
        rfl
      | some c0 =>
        simp only [AddressController.Delete, AddressUseCase.Delete, addressOwned, hco, hfind]
        rfl
  · intro uc auth contactId
    cases hu : uc { userId := auth.id, id := contactId } with
    | error e => simp [ContactController.Delete, hu]
    | ok u => cases u; simp [ContactController.Delete, hu]
  · intro uc auth contactId addressId
    cases hu : uc { userId := auth.id, contactId := contactId, id := addressId } with
    | error e => simp [AddressController.Delete, hu]
    | ok u => cases u; simp [AddressController.Delete, hu]

/-- Witness for `delete_notFound_or_success`: deleting contact `c1` for user
`u` over an empty store yields 404; deleting a live address `a1` that sits
under contact `c1` owned by a *different* user yields 404 (ownership
violation, not a silent success); and a succeeding use case yields
`data = true`. -/
theorem delete_notFound_or_success_witness :
    ContactController.Delete
        (fun r => (ContactUseCase.Delete [] 0 r).map fun _ => ()) { id := "u" } "c1" =
      .error 404 ∧
    AddressController.Delete
        (fun r => (AddressUseCase.Delete
            [{ id := "c1", userId := "other", firstName := "", lastName := "",
               email := "", phone := "", createdAt := 0, updatedAt := 0,
               deletedAt := none }]
            [{ id := "a1", contactId := "c1", street := "", city := "", province := "",
               postalCode := "", country := "", createdAt := 0, updatedAt := 0,
               deletedAt := none }] 0 r).map fun _ => ())
        { id := "u" } "c1" "a1" = .error 404 ∧
    ContactController.Delete (fun _ => .ok ()) { id := "u" } "c1" = .ok { data := true } :=
  ⟨delete_notFound_or_success.1 [] 0 { id := "u" } "c1" (by simp),
   delete_notFound_or_success.2.1 _ _ 0 { id := "u" } "c1" "a1" (Or.inl (by decide)),
   (delete_notFound_or_success.2.2.1 (fun _ => .ok ()) { id := "u" } "c1").mpr rfl⟩

/-- C7: the entity→response converters map each response field to exactly
the corresponding stored entity field, and for every valid Create (contact
or address) the returned identifier is non-empty and a subsequent Get with
that identifier returns the same field values. -/
theorem create_then_get_roundtrip :
    (∀ c : Contact,
        (ContactToResponse c).id = c.id ∧ (ContactToResponse c).firstName = c.firstName ∧
        (ContactToResponse c).lastName = c.lastName ∧ (ContactToResponse c).email = c.email ∧
        (ContactToResponse c).phone = c.phone ∧ (ContactToResponse c).createdAt = c.createdAt ∧
        (ContactToResponse c).updatedAt = c.updatedAt) ∧
    (∀ a : Address,
        (AddressToResponse a).id = a.id ∧ (AddressToResponse a).street = a.street ∧
        (AddressToResponse a).city = a.city ∧ (AddressToResponse a).province = a.province ∧
        (AddressToResponse a).postalCode = a.postalCode ∧
        (AddressToResponse a).country = a.country ∧
        (AddressToResponse a).createdAt = a.createdAt ∧
        (AddressToResponse a).updatedAt = a.updatedAt) ∧
    (∀ (store : List Contact) (now : ℤ) (fresh : ℕ) (req : CreateContactRequest),
        (∀ c ∈ store, c.id ≠ genUUID fresh) →
        (ContactUseCase.Create store now fresh req).1.id ≠ "" ∧
        ContactUseCase.Get (ContactUseCase.Create store now fresh req).2
            { userId := req.userId, id := (ContactUseCase.Create store now fresh req).1.id } =
          .ok (ContactUseCase.Create store now fresh req).1) ∧
    (∀ (contacts : List Contact) (addresses : List Address) (now : ℤ) (fresh : ℕ)
        (req : CreateAddressRequest) (resp : AddressResponse) (rest : List Address),
        (∀ a ∈ addresses, a.id ≠ genUUID fresh) →
        AddressUseCase.Create contacts addresses now fresh req = .ok (resp, rest) →
        resp.id ≠ "" ∧
        AddressUseCase.Get contacts rest req.userId req.contactId resp.id = .ok resp) := by
  refine ⟨fun c => ⟨rfl, rfl, rfl, rfl, rfl, rfl, rfl⟩,
    fun a => ⟨rfl, rfl, rfl, rfl, rfl, rfl, rfl, rfl⟩, ?_, ?_⟩
  · intro store now fresh req h
    refine ⟨genUUID_ne_empty fresh, ?_⟩
    unfold ContactUseCase.Get contactOwned ContactUseCase.Create
    rw [find?_append_none]
    · simp [ContactToResponse]
    · intro c hc
      simp only [Bool.and_eq_false_iff, beq_eq_false_iff_ne]
      exact Or.inl (Or.inl (h c hc))
  · intro contacts addresses now fresh req resp rest h hcreate
    unfold AddressUseCase.Create at hcreate
    cases hco : contactOwned contacts req.userId req.contactId with
    | none => rw [hco] at hcreate; exact absurd hcreate (by simp)
    | some c0 =>
      rw [hco] at hcreate
      simp only [Except.ok.injEq, Prod.mk.injEq] at hcreate
      obtain ⟨hresp, hrest⟩ := hcreate
      subst hresp hrest
      refine ⟨genUUID_ne_empty fresh, ?_⟩
      unfold AddressUseCase.Get addressOwned
      rw [hco, find?_append_none]
      · simp [AddressToResponse]
      · intro a ha
        simp only [Bool.and_eq_false_iff, beq_eq_false_iff_ne]
        exact Or.inl (Or.inl (h a ha))

/-- Witness for `create_then_get_roundtrip`: creating a contact in an empty
store yields a non-empty id and `Get` finds the created contact again. -/
theorem create_then_get_roundtrip_witness :
    (ContactUseCase.Create [] 0 0 {}).1.id ≠ "" ∧
    ContactUseCase.Get (ContactUseCase.Create [] 0 0 {}).2
        { userId := "", id := (ContactUseCase.Create [] 0 0 {}).1.id } =
      .ok (ContactUseCase.Create [] 0 0 {}).1 :=
  create_then_get_roundtrip.2.2.1 [] 0 0 {} (by simp)

/-! ### Properties of the binary64 rounding model -/

theorem two_zpow_ofNat (k : ℕ) : (2:ℚ) ^ (k:ℤ) = ((2^k : ℤ) : ℚ) := by
  rw [zpow_natCast]
  push_cast
  rfl

theorem rndSig_bounds (q : ℚ) :
    rndScaled q - 1/2 ≤ (rndSig q : ℚ) ∧ (rndSig q : ℚ) ≤ rndScaled q + 1/2 := by
  unfold rndSig
  have h1 : ((⌊rndScaled q⌋ : ℤ) : ℚ) ≤ rndScaled q := Int.floor_le (rndScaled q)
  have h2 : rndScaled q < (⌊rndScaled q⌋ : ℚ) + 1 := Int.lt_floor_add_one (rndScaled q)
  by_cases hlt : rndScaled q - (⌊rndScaled q⌋ : ℚ) < 1/2
  · rw [if_pos hlt]
    constructor <;> linarith
  · rw [if_neg hlt]
    by_cases hgt : 1/2 < rndScaled q - (⌊rndScaled q⌋ : ℚ)
    · rw [if_pos hgt]
      push_cast
      constructor <;> linarith
    · rw [if_neg hgt]
      have heq : rndScaled q - (⌊rndScaled q⌋ : ℚ) = 1/2 :=
        le_antisymm (not_lt.mp hgt) (not_lt.mp hlt)
      by_cases hdvd : 2 ∣ ⌊rndScaled q⌋
      · rw [if_pos hdvd]
        constructor <;> linarith
      · rw [if_neg hdvd]
        push_cast
        constructor <;> linarith

theorem rndScaled_bounds (q : ℚ) (hq : 0 < q) :
    (2:ℚ) ^ (52:ℤ) ≤ rndScaled q ∧ rndScaled q < (2:ℚ) ^ (53:ℤ) := by
  unfold rndScaled
  have hlow := Int.zpow_log_le_self (R := ℚ) (b := 2) (by norm_num) hq
  have hhigh := Int.lt_zpow_succ_log_self (R := ℚ) (b := 2) (by norm_num) q
  have hp : (0:ℚ) < (2:ℚ) ^ ((52:ℤ) - Int.log 2 q) := zpow_pos (by norm_num) _
  constructor
  · calc (2:ℚ) ^ (52:ℤ)
        = (2:ℚ) ^ (Int.log 2 q) * (2:ℚ) ^ ((52:ℤ) - Int.log 2 q) := by
          rw [← zpow_add₀ (by norm_num : (2:ℚ) ≠ 0)]
          congr 1
          ring
      _ ≤ q * (2:ℚ) ^ ((52:ℤ) - Int.log 2 q) :=
          mul_le_mul_of_nonneg_right hlow hp.le
  · calc q * (2:ℚ) ^ ((52:ℤ) - Int.log 2 q)
        < (2:ℚ) ^ (Int.log 2 q + 1) * (2:ℚ) ^ ((52:ℤ) - Int.log 2 q) :=
          (mul_lt_mul_right hp).mpr hhigh
      _ = (2:ℚ) ^ (53:ℤ) := by
          rw [← zpow_add₀ (by norm_num : (2:ℚ) ≠ 0)]
          congr 1
          ring

theorem rndScaled_mul_back (q : ℚ) :
    rndScaled q * (2:ℚ) ^ (Int.log 2 q - 52) = q := by
  unfold rndScaled
  rw [mul_assoc, ← zpow_add₀ (by norm_num : (2:ℚ) ≠ 0)]
  have h : (52:ℤ) - Int.log 2 q + (Int.log 2 q - 52) = 0 := by ring
  rw [h, zpow_zero, mul_one]

theorem rndPos_err (q : ℚ) :
    q - (2:ℚ) ^ (Int.log 2 q - 53) ≤ rndPos q ∧
    rndPos q ≤ q + (2:ℚ) ^ (Int.log 2 q - 53) := by
  obtain ⟨h1, h2⟩ := rndSig_bounds q
  unfold rndPos
  have hp : (0:ℚ) < (2:ℚ) ^ (Int.log 2 q - 52) := zpow_pos (by norm_num) _
  have hhalf : (1/2 : ℚ) * (2:ℚ) ^ (Int.log 2 q - 52) = (2:ℚ) ^ (Int.log 2 q - 53) := by
    rw [show (1/2 : ℚ) = (2:ℚ) ^ (-1 : ℤ) by norm_num,
      ← zpow_add₀ (by norm_num : (2:ℚ) ≠ 0)]
    congr 1
    ring
  constructor
  · have hm := mul_le_mul_of_nonneg_right h1 hp.le
    rw [sub_mul, rndScaled_mul_back, hhalf] at hm
    linarith
  · have hm := mul_le_mul_of_nonneg_right h2 hp.le
    rw [add_mul, rndScaled_mul_back, hhalf] at hm
    linarith

theorem rndSig_ge (q : ℚ) (hq : 0 < q) : 2 ^ 52 ≤ rndSig q := by
  obtain ⟨h1, _⟩ := rndSig_bounds q
  obtain ⟨hs, _⟩ := rndScaled_bounds q hq
  rw [show (2:ℚ) ^ (52:ℤ) = ((2^52 : ℤ) : ℚ) by norm_num] at hs
  have hcast : ((2^52 - 1 : ℤ) : ℚ) < (rndSig q : ℚ) := by
    push_cast at hs ⊢
    linarith
  have h3 : (2^52 - 1 : ℤ) < rndSig q := by exact_mod_cast hcast
  omega

theorem rndSig_le (q : ℚ) (hq : 0 < q) : rndSig q ≤ 2 ^ 53 := by
  obtain ⟨_, h2⟩ := rndSig_bounds q
  obtain ⟨_, hs⟩ := rndScaled_bounds q hq
  rw [show (2:ℚ) ^ (53:ℤ) = ((2^53 : ℤ) : ℚ) by norm_num] at hs
  have hcast : (rndSig q : ℚ) < ((2^53 + 1 : ℤ) : ℚ) := by
    push_cast at hs ⊢
    linarith
  have h3 : rndSig q < (2^53 + 1 : ℤ) := by exact_mod_cast hcast
  omega

theorem rndPos_eq_self (q : ℚ) (m : ℤ) (hm : (m : ℚ) = rndScaled q) :
    rndPos q = q := by
  have hfl : ⌊rndScaled q⌋ = m := by
    rw [← hm, Int.floor_intCast]
  have hsig : rndSig q = m := by
    unfold rndSig
    rw [hfl, ← hm]
    rw [if_pos (by norm_num)]
  unfold rndPos
  rw [hsig, hm, rndScaled_mul_back]

theorem rnd_of_pos (q : ℚ) (hq : 0 < q) : rnd q = rndPos q := by
  unfold rnd
  rw [if_neg (not_lt.mpr hq.le), if_neg hq.ne']

theorem rndPos_int (t : ℤ) (h1 : 1 ≤ t) (h2 : t ≤ 2^53) : rndPos (t : ℚ) = t := by
  have hq : (0:ℚ) < t := by exact_mod_cast h1
  have he0 : 0 ≤ Int.log 2 (t:ℚ) :=
    (Int.zpow_le_iff_le_log (by norm_num) hq).mp
      (by rw [zpow_zero]; exact_mod_cast h1)
  have he53 : Int.log 2 (t:ℚ) ≤ 53 := by
    have hlt : (t:ℚ) < (2:ℚ) ^ (54:ℤ) := by
      rw [show (2:ℚ) ^ (54:ℤ) = ((2^54 : ℤ) : ℚ) by norm_num]
      exact_mod_cast lt_of_le_of_lt h2 (by norm_num : (2^53 : ℤ) < 2^54)
    have h54 := (Int.lt_zpow_iff_log_lt (by norm_num) hq).mp hlt
    exact Int.lt_add_one_iff.mp h54
  by_cases hle : Int.log 2 (t:ℚ) ≤ 52
  · apply rndPos_eq_self _ (t * 2^((52 - Int.log 2 (t:ℚ)).toNat))
    unfold rndScaled
    have hnn : (0:ℤ) ≤ 52 - Int.log 2 (t:ℚ) := by omega
    rw [show ((t * 2 ^ ((52 - Int.log 2 (t:ℚ)).toNat) : ℤ) : ℚ)
          = (t:ℚ) * ((2:ℚ) ^ ((52 - Int.log 2 (t:ℚ)).toNat)) by push_cast; ring,
      ← zpow_natCast (2:ℚ), Int.toNat_of_nonneg hnn]
  · have he : Int.log 2 (t:ℚ) = 53 := by omega
    have hge : (2:ℚ) ^ (53:ℤ) ≤ (t:ℚ) := by
      rw [← he]
      exact Int.zpow_log_le_self (by norm_num) hq
    have ht53 : (2^53 : ℤ) ≤ t := by
      rw [show (2:ℚ) ^ (53:ℤ) = ((2^53 : ℤ) : ℚ) by norm_num] at hge
      exact_mod_cast hge
    have ht : t = 2^53 := le_antisymm h2 ht53
    apply rndPos_eq_self _ (2^52)
    unfold rndScaled
    rw [he, ht]
    push_cast
    norm_num

theorem rnd_int (t : ℤ) (h0 : 0 ≤ t) (h2 : t ≤ 2^53) : rnd (t : ℚ) = t := by
  rcases eq_or_lt_of_le h0 with h | h
  · rw [← h]
    norm_num [rnd]
  · have hq : (0:ℚ) < t := by exact_mod_cast h
    rw [rnd_of_pos _ hq]
    exact rndPos_int t h h2

theorem rndPos_pos (q : ℚ) (hq : 0 < q) : 0 < rndPos q := by
  have hsig := rndSig_ge q hq
  unfold rndPos
  apply mul_pos _ (zpow_pos (by norm_num) _)
  exact_mod_cast lt_of_lt_of_le (by norm_num : (0:ℤ) < 2^52) hsig

theorem rndPos_le_two_zpow (q : ℚ) (hq : 0 < q) :
    rndPos q ≤ (2:ℚ) ^ (Int.log 2 q + 1) := by
  have hsig := rndSig_le q hq
  unfold rndPos
  calc (rndSig q : ℚ) * (2:ℚ) ^ (Int.log 2 q - 52)
      ≤ ((2^53 : ℤ) : ℚ) * (2:ℚ) ^ (Int.log 2 q - 52) :=
        mul_le_mul_of_nonneg_right (by exact_mod_cast hsig)
          (zpow_pos (by norm_num) _).le
    _ = (2:ℚ) ^ (Int.log 2 q + 1) := by
        rw [show ((2^53 : ℤ) : ℚ) = (2:ℚ) ^ (53:ℤ) by norm_num,
          ← zpow_add₀ (by norm_num : (2:ℚ) ≠ 0)]
        congr 1
        ring

theorem rndPos_le_of_lt_int (q : ℚ) (hq : 0 < q) (c : ℤ) (hc : q < c)
    (he : Int.log 2 q ≤ 52) : rndPos q ≤ c := by
  obtain ⟨_, hup⟩ := rndSig_bounds q
  have hm : ((c * 2^((52 - Int.log 2 q).toNat) : ℤ) : ℚ) =
      (c:ℚ) * (2:ℚ) ^ ((52:ℤ) - Int.log 2 q) := by
    push_cast
    rw [← zpow_natCast (2:ℚ), Int.toNat_of_nonneg (by omega)]
  have hscaled : rndScaled q < (c:ℚ) * (2:ℚ) ^ ((52:ℤ) - Int.log 2 q) := by
    unfold rndScaled
    exact (mul_lt_mul_right (zpow_pos (by norm_num) _)).mpr hc
  have hn : rndSig q ≤ c * 2^((52 - Int.log 2 q).toNat) := by
    have h1 : (rndSig q : ℚ) < ((c * 2^((52 - Int.log 2 q).toNat) : ℤ) : ℚ) + 1 := by
      rw [hm]
      linarith
    have h2 : rndSig q < c * 2^((52 - Int.log 2 q).toNat) + 1 := by exact_mod_cast h1
    omega
  unfold rndPos
  calc (rndSig q : ℚ) * (2:ℚ) ^ (Int.log 2 q - 52)
      ≤ ((c * 2^((52 - Int.log 2 q).toNat) : ℤ) : ℚ) * (2:ℚ) ^ (Int.log 2 q - 52) :=
        mul_le_mul_of_nonneg_right (by exact_mod_cast hn) (zpow_pos (by norm_num) _).le
    _ = (c:ℚ) := by
        rw [hm, mul_assoc, ← zpow_add₀ (by norm_num : (2:ℚ) ≠ 0)]
        have h0 : (52:ℤ) - Int.log 2 q + (Int.log 2 q - 52) = 0 := by ring
        rw [h0, zpow_zero, mul_one]

theorem rndPos_lower_of_bounds (t s c : ℤ) (ht : t ≤ 2^53) (hc2 : 2 ≤ c)
    (hlow : (c:ℚ) - 1 < (t:ℚ)/s) (hup : (t:ℚ)/s < c)
    (htq : (0:ℚ) < t) (hsq : (0:ℚ) < s)
    (he0 : 0 ≤ Int.log 2 ((t:ℚ)/s)) (he52 : Int.log 2 ((t:ℚ)/s) ≤ 52) :
    (c:ℚ) - 1 < rndPos ((t:ℚ)/s) := by
  by_contra hcon
  have hq : 0 < (t:ℚ)/s := div_pos htq hsq
  have hcon' : rndPos ((t:ℚ)/s) ≤ (c:ℚ) - 1 := not_lt.mp hcon
  obtain ⟨hsiglow, _⟩ := rndSig_bounds ((t:ℚ)/s)
  -- step 1: the significand is at most (c-1)·2^(52-e)
  have hppos : (0:ℚ) < (2:ℚ) ^ ((52:ℤ) - Int.log 2 ((t:ℚ)/s)) := zpow_pos (by norm_num) _
  have hstep1 : (rndSig ((t:ℚ)/s) : ℚ) ≤
      ((c:ℚ) - 1) * (2:ℚ) ^ ((52:ℤ) - Int.log 2 ((t:ℚ)/s)) := by
    have hm := mul_le_mul_of_nonneg_right hcon' hppos.le
    have hcancel : rndPos ((t:ℚ)/s) * (2:ℚ) ^ ((52:ℤ) - Int.log 2 ((t:ℚ)/s)) =
        (rndSig ((t:ℚ)/s) : ℚ) := by
      unfold rndPos
      rw [mul_assoc, ← zpow_add₀ (by norm_num : (2:ℚ) ≠ 0)]
      have h0 : Int.log 2 ((t:ℚ)/s) - 52 + ((52:ℤ) - Int.log 2 ((t:ℚ)/s)) = 0 := by ring
      rw [h0, zpow_zero, mul_one]
    rw [hcancel] at hm
    exact hm
  -- step 3: q is within a half-ulp above c-1
  have hstep3 : (t:ℚ)/s ≤ ((c:ℚ) - 1) + (2:ℚ) ^ (Int.log 2 ((t:ℚ)/s) - 53) := by
    have hq_eq := rndScaled_mul_back ((t:ℚ)/s)
    have hple : rndScaled ((t:ℚ)/s) ≤ (rndSig ((t:ℚ)/s) : ℚ) + 1/2 := by linarith
    have hm := mul_le_mul_of_nonneg_right hple (zpow_pos (by norm_num : (0:ℚ) < 2)
      (Int.log 2 ((t:ℚ)/s) - 52)).le
    rw [hq_eq, add_mul] at hm
    have hback : ((c:ℚ) - 1) * (2:ℚ) ^ ((52:ℤ) - Int.log 2 ((t:ℚ)/s)) *
        (2:ℚ) ^ (Int.log 2 ((t:ℚ)/s) - 52) = (c:ℚ) - 1 := by
      rw [mul_assoc, ← zpow_add₀ (by norm_num : (2:ℚ) ≠ 0)]
      have h0 : (52:ℤ) - Int.log 2 ((t:ℚ)/s) + (Int.log 2 ((t:ℚ)/s) - 52) = 0 := by ring
      rw [h0, zpow_zero, mul_one]
    have hhalf : (1/2 : ℚ) * (2:ℚ) ^ (Int.log 2 ((t:ℚ)/s) - 52) =
        (2:ℚ) ^ (Int.log 2 ((t:ℚ)/s) - 53) := by
      rw [show (1/2 : ℚ) = (2:ℚ) ^ (-1 : ℤ) by norm_num,
        ← zpow_add₀ (by norm_num : (2:ℚ) ≠ 0)]
      congr 1
      ring
    have hsm := mul_le_mul_of_nonneg_right hstep1 (zpow_pos (by norm_num : (0:ℚ) < 2)
      (Int.log 2 ((t:ℚ)/s) - 52)).le
    rw [hback] at hsm
    calc (t:ℚ)/s ≤ (rndSig ((t:ℚ)/s) : ℚ) * (2:ℚ) ^ (Int.log 2 ((t:ℚ)/s) - 52) +
          (1/2) * (2:ℚ) ^ (Int.log 2 ((t:ℚ)/s) - 52) := hm
      _ ≤ ((c:ℚ) - 1) + (2:ℚ) ^ (Int.log 2 ((t:ℚ)/s) - 53) := by
          rw [hhalf]
          linarith
  -- step 4: q is at least c-1 + 1/s
  have hts : (c - 1) * s + 1 ≤ t := by
    have h1 : ((c:ℚ) - 1) * s < t := (lt_div_iff hsq).mp hlow
    have h2 : ((c - 1) * s : ℤ) < t := by exact_mod_cast h1
    omega
  have hstep4 : ((c:ℚ) - 1) + 1/s ≤ (t:ℚ)/s := by
    have h1 : (((c - 1) * s + 1 : ℤ) : ℚ) / s ≤ (t:ℚ)/s := by
      gcongr

    calc ((c:ℚ) - 1) + 1/s = (((c - 1) * s + 1 : ℤ) : ℚ) / s := by
          push_cast
          field_simp
      _ ≤ (t:ℚ)/s := h1
  -- step 5: 1/s ≤ half-ulp
  have hstep5 : (1:ℚ)/s ≤ (2:ℚ) ^ (Int.log 2 ((t:ℚ)/s) - 53) := by linarith
  -- step 6: 2^(53-e) ≤ s
  have hstep6 : (2:ℚ) ^ ((53:ℤ) - Int.log 2 ((t:ℚ)/s)) ≤ (s:ℚ) := by
    have h6 : (2:ℚ) ^ ((53:ℤ) - Int.log 2 ((t:ℚ)/s)) / s ≤ 1 := by
      have hm := mul_le_mul_of_nonneg_left hstep5
        (zpow_pos (by norm_num : (0:ℚ) < 2) ((53:ℤ) - Int.log 2 ((t:ℚ)/s))).le
      have hone : (2:ℚ) ^ ((53:ℤ) - Int.log 2 ((t:ℚ)/s)) *
          (2:ℚ) ^ (Int.log 2 ((t:ℚ)/s) - 53) = 1 := by
        rw [← zpow_add₀ (by norm_num : (2:ℚ) ≠ 0)]
        have h0 : (53:ℤ) - Int.log 2 ((t:ℚ)/s) + (Int.log 2 ((t:ℚ)/s) - 53) = 0 := by ring
        rw [h0, zpow_zero]
      rw [hone] at hm
      calc (2:ℚ) ^ ((53:ℤ) - Int.log 2 ((t:ℚ)/s)) / s
          = (2:ℚ) ^ ((53:ℤ) - Int.log 2 ((t:ℚ)/s)) * (1/s) := by ring
        _ ≤ 1 := hm
    exact (div_le_one hsq).mp h6
  -- step 7/8: cast the powers down to ℤ
  have hE : ((Int.log 2 ((t:ℚ)/s)).toNat : ℤ) = Int.log 2 ((t:ℚ)/s) :=
    Int.toNat_of_nonneg he0
  have hF : (((53:ℤ) - Int.log 2 ((t:ℚ)/s)).toNat : ℤ) = 53 - Int.log 2 ((t:ℚ)/s) :=
    Int.toNat_of_nonneg (by omega)
  have hsF : (2 ^ ((53:ℤ) - Int.log 2 ((t:ℚ)/s)).toNat : ℤ) ≤ s := by
    have hcast : ((2 ^ ((53:ℤ) - Int.log 2 ((t:ℚ)/s)).toNat : ℤ) : ℚ) =
        (2:ℚ) ^ ((53:ℤ) - Int.log 2 ((t:ℚ)/s)) := by
      push_cast
      rw [← zpow_natCast (2:ℚ), hF]
    rw [← hcast] at hstep6
    exact_mod_cast hstep6
  have hcE : (2 ^ (Int.log 2 ((t:ℚ)/s)).toNat : ℤ) ≤ c - 1 := by
    have hqge : (2:ℚ) ^ (Int.log 2 ((t:ℚ)/s)) ≤ (t:ℚ)/s :=
      Int.zpow_log_le_self (by norm_num) hq
    have hcast : ((2 ^ (Int.log 2 ((t:ℚ)/s)).toNat : ℤ) : ℚ) =
        (2:ℚ) ^ (Int.log 2 ((t:ℚ)/s)) := by
      push_cast
      rw [← zpow_natCast (2:ℚ), hE]
    have hlt : ((2 ^ (Int.log 2 ((t:ℚ)/s)).toNat : ℤ) : ℚ) < (c:ℚ) := by
      rw [hcast]
      linarith
    have := (by exact_mod_cast hlt : (2 ^ (Int.log 2 ((t:ℚ)/s)).toNat : ℤ) < c)
    omega
  -- step 9: contradiction with t ≤ 2^53
  have hEF : (Int.log 2 ((t:ℚ)/s)).toNat + ((53:ℤ) - Int.log 2 ((t:ℚ)/s)).toNat = 53 := by
    omega
  have hmul : (2 ^ (Int.log 2 ((t:ℚ)/s)).toNat : ℤ) *
      (2 ^ ((53:ℤ) - Int.log 2 ((t:ℚ)/s)).toNat : ℤ) = 2^53 := by
    rw [← pow_add, hEF]
  have hprod : (2^53 : ℤ) ≤ (c - 1) * s := by
    rw [← hmul]
    apply mul_le_mul hcE hsF (by positivity) (by omega)
  have h53 : (2^53 : ℤ) = 9007199254740992 := by norm_num
  omega

theorem rndPos_ceil_div (t s : ℤ) (ht1 : 1 ≤ t) (ht : t ≤ 2^53)
    (hs1 : 1 ≤ s) (hs : s ≤ 2^53) :
    ⌈rndPos ((t:ℚ)/s)⌉ = ⌈(t:ℚ)/s⌉ := by
  have hsq : (0:ℚ) < s := by exact_mod_cast lt_of_lt_of_le one_pos hs1
  have htq : (0:ℚ) < t := by exact_mod_cast lt_of_lt_of_le one_pos ht1
  have hq : 0 < (t:ℚ)/s := div_pos htq hsq
  by_cases hint : ∃ m : ℤ, (m:ℚ) = (t:ℚ)/s
  · obtain ⟨m, hm⟩ := hint
    have hm0 : (0:ℚ) < (m:ℚ) := hm ▸ hq
    have hm1 : 1 ≤ m := by exact_mod_cast hm0
    have hmle : m ≤ t := by
      have hle : (m:ℚ) ≤ (t:ℚ) := by
        rw [hm]
        exact div_le_self htq.le (by exact_mod_cast hs1)
      exact_mod_cast hle
    rw [← hm, rndPos_int m hm1 (le_trans hmle ht)]
  · have hirr : (t:ℚ)/s < (⌈(t:ℚ)/s⌉ : ℚ) := by
      rcases lt_or_eq_of_le (Int.le_ceil ((t:ℚ)/s)) with h | h
      · exact h
      · exact absurd ⟨⌈(t:ℚ)/s⌉, h.symm⟩ hint
    have hlow : (⌈(t:ℚ)/s⌉ : ℚ) - 1 < (t:ℚ)/s := by
      have := Int.ceil_lt_add_one ((t:ℚ)/s)
      linarith
    have hc1 : 1 ≤ ⌈(t:ℚ)/s⌉ := Int.ceil_pos.mpr hq
    have hcle : ⌈(t:ℚ)/s⌉ ≤ t := by
      have h1 : ⌈(t:ℚ)/s⌉ ≤ ⌈(t:ℚ)⌉ :=
        Int.ceil_le_ceil (div_le_self htq.le (by exact_mod_cast hs1))
      simpa using h1
    have he52 : Int.log 2 ((t:ℚ)/s) ≤ 52 := by
      have hclt : ((⌈(t:ℚ)/s⌉ : ℤ) : ℚ) ≤ ((2^53 : ℤ) : ℚ) := by
        exact_mod_cast le_trans hcle ht
      have hqlt : (t:ℚ)/s < (2:ℚ) ^ (53:ℤ) := by
        rw [show (2:ℚ) ^ (53:ℤ) = ((2^53 : ℤ) : ℚ) by norm_num]
        linarith
      have h53 := (Int.lt_zpow_iff_log_lt (by norm_num) hq).mp hqlt
      exact Int.lt_add_one_iff.mp h53
    rw [Int.ceil_eq_iff]
    constructor
    · by_cases hc2 : ⌈(t:ℚ)/s⌉ = 1
      · rw [hc2]
        have := rndPos_pos _ hq
        push_cast
        linarith
      · have hc2' : 2 ≤ ⌈(t:ℚ)/s⌉ := by omega
        have he0 : 0 ≤ Int.log 2 ((t:ℚ)/s) := by
          have hq1 : (1:ℚ) ≤ (t:ℚ)/s := by
            have : (1:ℚ) ≤ (⌈(t:ℚ)/s⌉ : ℚ) - 1 := by
              have : ((2:ℤ) : ℚ) ≤ (⌈(t:ℚ)/s⌉ : ℚ) := by exact_mod_cast hc2'
              push_cast at this ⊢
              linarith
            linarith
          exact (Int.zpow_le_iff_le_log (by norm_num) hq).mp (by rw [zpow_zero]; exact hq1)
        exact rndPos_lower_of_bounds t s ⌈(t:ℚ)/s⌉ ht hc2' hlow hirr htq hsq he0 he52
    · by_cases hc2 : ⌈(t:ℚ)/s⌉ = 1
      · rw [hc2]
        have hqlt1 : (t:ℚ)/s < 1 := by
          rw [hc2] at hirr
          push_cast at hirr
          exact hirr
        have helt : Int.log 2 ((t:ℚ)/s) < 0 :=
          (Int.lt_zpow_iff_log_lt (by norm_num) hq).mp (by rw [zpow_zero]; exact hqlt1)
        have hb := rndPos_le_two_zpow _ hq
        have h2 : (2:ℚ) ^ (Int.log 2 ((t:ℚ)/s) + 1) ≤ (2:ℚ) ^ (0:ℤ) :=
          zpow_le_zpow_right₀ (by norm_num : (1:ℚ) ≤ 2) (by omega)
        rw [zpow_zero] at h2
        push_cast
        linarith
      · exact rndPos_le_of_lt_int _ hq _ hirr he52

/-- The pagination formula `int64(math.Ceil(float64(total)/float64(size)))`
computes the exact integer ceiling whenever `0 ≤ total ≤ 2^53` and
`1 ≤ size ≤ 2^53`. -/
theorem totalPageGo_eq_ceil (t s : ℤ) (ht0 : 0 ≤ t) (ht : t ≤ 2^53)
    (hs1 : 1 ≤ s) (hs : s ≤ 2^53) :
    totalPageGo t s = ⌈(t:ℚ)/s⌉ := by
  unfold totalPageGo
  rw [if_neg (by omega : ¬ s = 0)]
  rw [rnd_int t ht0 ht, rnd_int s (by omega) hs]
  rcases eq_or_lt_of_le ht0 with h0 | h0
  · rw [← h0]
    norm_num [rnd]
  · have ht1 : 1 ≤ t := h0
    have hsq : (0:ℚ) < s := by exact_mod_cast lt_of_lt_of_le one_pos hs1
    have htq : (0:ℚ) < t := by exact_mod_cast lt_of_lt_of_le one_pos ht1
    rw [rnd_of_pos _ (div_pos htq hsq)]
    exact rndPos_ceil_div t s ht1 ht hs1 hs

theorem rnd_one_q : rnd (1:ℚ) = 1 := by
  have h := rnd_int 1 (by norm_num) (by norm_num)
  push_cast at h
  exact h

theorem rnd_two_pow_53 : rnd (9007199254740992 : ℚ) = 9007199254740992 := by
  have h := rnd_int 9007199254740992 (by norm_num) (by norm_num)
  push_cast at h
  exact h

theorem rnd_two_pow_53_succ : rnd (9007199254740993 : ℚ) = 9007199254740992 := by
  have hpos : (0:ℚ) < 9007199254740993 := by norm_num
  rw [rnd_of_pos _ hpos]
  have hlog : Int.log 2 (9007199254740993 : ℚ) = 53 := by
    have hle : (53:ℤ) ≤ Int.log 2 (9007199254740993 : ℚ) := by
      apply (Int.zpow_le_iff_le_log (by norm_num) hpos).mp
      push_cast
      norm_num
    have hlt : Int.log 2 (9007199254740993 : ℚ) < 54 := by
      apply (Int.lt_zpow_iff_log_lt (by norm_num) hpos).mp
      push_cast
      norm_num
    omega
  have hval : rndScaled (9007199254740993 : ℚ) = 4503599627370496 + 1/2 := by
    unfold rndScaled
    rw [hlog]
    norm_num
  have hfl : ⌊rndScaled (9007199254740993 : ℚ)⌋ = 4503599627370496 := by
    rw [hval, Int.floor_eq_iff]
    constructor
    · push_cast
      norm_num
    · push_cast
      norm_num
  have hsig : rndSig (9007199254740993 : ℚ) = 4503599627370496 := by
    unfold rndSig
    rw [hfl, hval]
    rw [if_neg (by push_cast; norm_num), if_neg (by push_cast; norm_num),
      if_pos (by norm_num)]
  unfold rndPos
  rw [hsig, hlog]
  norm_num

/-- C2 counterexample: at `total = 2^53 + 1 = 9007199254740993` and
`size = 1` the float64 computation of `ContactController.List` yields
`2^53 = 9007199254740992`, one less than the exact ceiling
`⌈total/size⌉ = 9007199254740993`: the claim "total_page = ceil(total/size)
for all non-negative totals and positive sizes" is false. -/
theorem totalPage_not_exact_ceil :
    totalPageGo 9007199254740993 1 = 9007199254740992 ∧
    ⌈((9007199254740993 : ℤ) : ℚ) / ((1 : ℤ) : ℚ)⌉ = 9007199254740993 ∧
    totalPageGo 9007199254740993 1 ≠
      ⌈((9007199254740993 : ℤ) : ℚ) / ((1 : ℤ) : ℚ)⌉ := by
  have hgo : totalPageGo 9007199254740993 1 = 9007199254740992 := by
    unfold totalPageGo
    rw [if_neg (by norm_num)]
    push_cast
    rw [rnd_two_pow_53_succ, rnd_one_q, div_one, rnd_two_pow_53]
    rw [show (9007199254740992 : ℚ) = ((9007199254740992 : ℤ) : ℚ) by push_cast; rfl]
    exact Int.ceil_intCast _
  have hceil : ⌈((9007199254740993 : ℤ) : ℚ) / ((1 : ℤ) : ℚ)⌉ = 9007199254740993 := by
    push_cast
    rw [div_one]
    rw [show (9007199254740993 : ℚ) = ((9007199254740993 : ℤ) : ℚ) by push_cast; rfl]
    exact Int.ceil_intCast _
  exact ⟨hgo, hceil, by omega⟩

/-- C2 (amended): for every contact list response the `total_page` field
equals the exact integer ceiling `⌈total/size⌉` whenever
`0 ≤ total ≤ 2^53` and `1 ≤ size ≤ 2^53`; beyond `2^53` the float64
arithmetic may lose exactness. -/
theorem totalPage_eq_ceil_in_range (t s : ℤ) (ht0 : 0 ≤ t) (ht : t ≤ 2^53)
    (hs1 : 1 ≤ s) (hs : s ≤ 2^53) :
    totalPageGo t s = ⌈(t:ℚ) / (s:ℚ)⌉ :=
  totalPageGo_eq_ceil t s ht0 ht hs1 hs

/-- Witness for `totalPage_eq_ceil_in_range` at `total = 25`, `size = 10`:
the computed total page count is `⌈25/10⌉ = 3`. -/
theorem totalPage_eq_ceil_in_range_witness : totalPageGo 25 10 = 3 := by
  rw [totalPage_eq_ceil_in_range 25 10 (by norm_num) (by norm_num) (by norm_num)
    (by norm_num)]
  rw [Int.ceil_eq_iff]
  constructor
  · push_cast
    norm_num
  · push_cast
    norm_num

/-- C1 counterexample: a request that supplies `size=0` explicitly is *not*
treated as the default: `ctx.QueryInt("size", 10)` only falls back to 10
when the parameter is absent or unparsable, so the paging metadata's size
field is 0, not 10. -/
theorem contactList_supplied_zero_size_not_default :
    (∃ w, listContacts demoContacts { id := "u1" } none none none
        (some 1) (some 0) = .ok w ∧
      w.paging.map PageMetadata.size = some 0) ∧
    some (0:ℤ) ≠ some 10 :=
  ⟨⟨_, rfl, rfl⟩, by decide⟩

/-- C1 (amended): the default page size 10 is applied only when the size
query parameter is absent (or unparsable); a supplied zero or negative size
is forwarded unchanged into the search request and reported unchanged in the
paging metadata (whose total_page is then computed with that raw size),
while the modelled use-case search itself treats `size ≤ 0` as 10, so the
returned page still holds at most 10 items. -/
theorem contactList_size_default_only_when_missing :
    (∀ (store : List Contact) (auth : Auth) (qn qe qp : Option String)
        (qpage : Option ℤ) (v : ℤ), v ≤ 0 →
        ∃ w, listContacts store auth qn qe qp qpage (some v) = .ok w ∧
          (∃ m, w.paging = some m ∧ m.size = v ∧ m.page = qpage.getD 1 ∧
            m.totalPage = totalPageGo m.totalItem v) ∧
          w.data.length ≤ 10) ∧
    (∀ (store : List Contact) (auth : Auth) (qn qe qp : Option String)
        (qpage : Option ℤ),
        ∃ w, listContacts store auth qn qe qp qpage none = .ok w ∧
          (∃ m, w.paging = some m ∧ m.size = 10) ∧ w.data.length ≤ 10) := by
  constructor
  · intro store auth qn qe qp qpage v hv
    refine ⟨_, rfl, ⟨_, rfl, rfl, rfl, rfl⟩, ?_⟩
    show (((ContactUseCase.Search store _).1 : List ContactResponse)).length ≤ 10
    simp only [ContactUseCase.Search, Option.getD_some]
    rw [List.length_map]
    exact le_trans (List.length_take_le _ _) (by rw [if_pos hv]; norm_num)
  · intro store auth qn qe qp qpage
    refine ⟨_, rfl, ⟨_, rfl, rfl⟩, ?_⟩
    show (((ContactUseCase.Search store _).1 : List ContactResponse)).length ≤ 10
    simp only [ContactUseCase.Search, Option.getD_none]
    rw [List.length_map]
    exact le_trans (List.length_take_le _ _)
      (by rw [if_neg (by norm_num : ¬ (10:ℤ) ≤ 0)]; norm_num)

/-- Witness for `contactList_size_default_only_when_missing`: supplying
`size=0` over the 25-contact store yields paging size 0 and at most 10
items. -/
theorem contactList_size_default_only_when_missing_witness :
    ∃ w, listContacts demoContacts { id := "u1" } none none none
        (some 1) (some 0) = .ok w ∧
      (∃ m, w.paging = some m ∧ m.size = 0 ∧ m.page = (some (1:ℤ)).getD 1 ∧
        m.totalPage = totalPageGo m.totalItem 0) ∧
      w.data.length ≤ 10 :=
  contactList_size_default_only_when_missing.1 demoContacts { id := "u1" }
    none none none (some 1) 0 (by norm_num)

/-- C6: a page strictly beyond the last page of matching contacts yields an
empty item list and no error; concretely, over the 25-contact store with
`size=10`: `page=1` gives 10 items and `total_page=3`, `page=3` gives 5
items, `page=4` gives 0 items, all without error. -/
theorem contactList_page_beyond_last :
    (∀ (store : List Contact) (auth : Auth) (qn qe qp : Option String)
        (page size : ℤ), 0 < size →
        ((store.filter (matchesSearch
            { userId := auth.id, name := qn.getD "", email := qe.getD "",
              phone := qp.getD "", page := page, size := size })).length : ℤ) ≤
          (page - 1) * size →
        ∃ w, listContacts store auth qn qe qp (some page) (some size) = .ok w ∧
          w.data = []) ∧
    (∃ w, listContacts demoContacts { id := "u1" } none none none
        (some 1) (some 10) = .ok w ∧ w.data.length = 10 ∧
      w.paging.map PageMetadata.page = some 1 ∧
      w.paging.map PageMetadata.size = some 10 ∧
      w.paging.map PageMetadata.totalItem = some 25 ∧
      w.paging.map PageMetadata.totalPage = some 3) ∧
    (∃ w, listContacts demoContacts { id := "u1" } none none none
        (some 3) (some 10) = .ok w ∧ w.data.length = 5) ∧
    (∃ w, listContacts demoContacts { id := "u1" } none none none
        (some 4) (some 10) = .ok w ∧ w.data = []) := by
  have h3 : totalPageGo 25 10 = 3 := by
    rw [totalPageGo_eq_ceil 25 10 (by norm_num) (by norm_num) (by norm_num) (by norm_num),
      Int.ceil_eq_iff]
    constructor
    · push_cast
      norm_num
    · push_cast
      norm_num
  refine ⟨?_, ?_, ?_, ?_⟩
  · intro store auth qn qe qp page size hsz hbeyond
    refine ⟨_, rfl, ?_⟩
    show ((((store.filter _).drop _).take _).map ContactToResponse : List ContactResponse) = []
    have hdrop : (store.filter (matchesSearch
        { userId := auth.id, name := qn.getD "", email := qe.getD "",
          phone := qp.getD "", page := (some page).getD 1,
          size := (some size).getD 10 })).drop
        ((((some page).getD 1 - 1) *
          (if (some size).getD 10 ≤ 0 then 10 else (some size).getD 10)).toNat) = [] := by
      apply List.drop_eq_nil_of_le
      have hif : (if (some size).getD 10 ≤ 0 then (10:ℤ) else (some size).getD 10) = size := by
        simp only [Option.getD_some]
        rw [if_neg (by omega)]
      rw [hif]
      have hmono := Int.toNat_le_toNat hbeyond
      simpa using hmono
    rw [hdrop, List.take_nil, List.map_nil]
  · refine ⟨_, rfl, by decide, by decide, by decide, by decide, ?_⟩
    rw [← h3]
    rfl
  · exact ⟨_, rfl, by decide⟩
  · exact ⟨_, rfl, by decide⟩

/-- Witness for `contactList_page_beyond_last`: page 100 of the 25-contact
store is far beyond the last page and returns an empty list without
error. -/
theorem contactList_page_beyond_last_witness :
    ∃ w, listContacts demoContacts { id := "u1" } none none none
        (some 100) (some 10) = .ok w ∧ w.data = [] :=
  contactList_page_beyond_last.1 demoContacts { id := "u1" } none none none 100 10
    (by norm_num) (by decide)
